import Mathlib

/-!
Verification of the tracing-and-compilation core of the pyautodiff
repository (`autodiff/symbolic.py`, `autodiff/optimize.py`).

The development shallowly embeds the data model and operations of the
`Symbolic` wrapper and its compiler subclasses (`Function`, `Gradient`,
`HessianVector`, `VectorArgs`).  Python runtime values are modelled by the
inductive `PyVal`; object identity is modelled by explicit numeric ids;
mutable Python objects live in an explicit store (a list indexed by id).
External subsystems (the Theano graph runtime and the tracing `Context`)
are out of scope and appear only through opaque tokens, exactly at the
interface boundary where `symbolic.py` calls them.
-/

namespace PyAutodiff

/-- A Python runtime value, as far as `symbolic.py` inspects values:
plain `int`s (subject to CPython small-integer interning), boxed numpy
integers (`np.int_`), strings, the three container types rejected by
`Symbolic.trace` (`list`, `tuple`, `dict` with string keys), and any
other object (arrays, floats, ...) represented opaquely. -/
inductive PyVal where
  | int : Int → PyVal
  | npint : Int → PyVal
  | str : String → PyVal
  | list : List PyVal → PyVal
  | tuple : List PyVal → PyVal
  | dict : List (String × PyVal) → PyVal
  | obj : Nat → PyVal
  deriving Repr

/-- `type(i) is int and -5 <= i <= 256`: the small-integer test used at
`symbolic.py` lines 53, 115 and 265.  Only plain `int`s qualify (numpy
ints are a different type, so `type(i) is int` is false for them). -/
def isSmallInt : PyVal → Bool
  | PyVal.int n => decide (-5 ≤ n) && decide (n ≤ 256)
  | _ => false

/-- `isinstance(i, (list, tuple, dict))`: the container test of
`symbolic.py` line 117. -/
def isContainer : PyVal → Bool
  | PyVal.list _ => true
  | PyVal.tuple _ => true
  | PyVal.dict _ => true
  | _ => false

mutual

/-- Python `str()` of a value, as used by `.format` in the error messages
of `symbolic.py` (up to Python quoting of string elements inside
containers, which no claim depends on). -/
def pyStr : PyVal → String
  | PyVal.int n => toString n
  | PyVal.npint n => toString n
  | PyVal.str s => s
  | PyVal.list xs => "[" ++ pyStrList xs ++ "]"
  | PyVal.tuple xs => "(" ++ pyStrList xs ++ ")"
  | PyVal.dict xs => "\x7b" ++ pyStrDict xs ++ "\x7d"
  | PyVal.obj n => "<object " ++ toString n ++ ">"

def pyStrList : List PyVal → String
  | [] => ""
  | [x] => pyStr x
  | x :: y :: xs => pyStr x ++ ", " ++ pyStrList (y :: xs)

def pyStrDict : List (String × PyVal) → String
  | [] => ""
  | [(k, v)] => k ++ ": " ++ pyStr v
  | (k, v) :: y :: xs => k ++ ": " ++ pyStr v ++ ", " ++ pyStrDict (y :: xs)

end

/-- The error text of `symbolic.py` lines 118-120 (container argument). -/
def containerMsg (name : String) (i : PyVal) : String :=
  "Function arguments can not be containers (received " ++ pyStr i ++
    " for argument " ++ name ++ ")."

/-- `symbolic.py` lines 114-121, the local `check` of `Symbolic.trace`:
box small integers as `np.int_`, reject containers with a `TypeError`
naming the argument, pass every other value through unchanged. -/
def check (name : String) (i : PyVal) : Except String PyVal :=
  match i with
  | PyVal.int n =>
      if -5 ≤ n ∧ n ≤ 256 then Except.ok (PyVal.npint n)
      else Except.ok (PyVal.int n)
  | PyVal.list xs => Except.error (containerMsg name (PyVal.list xs))
  | PyVal.tuple xs => Except.error (containerMsg name (PyVal.tuple xs))
  | PyVal.dict xs => Except.error (containerMsg name (PyVal.dict xs))
  | v => Except.ok v

/-- The value produced by `check` on a non-container input: small plain
ints are boxed, everything else is unchanged. -/
def boxSmall : PyVal → PyVal
  | PyVal.int n =>
      if -5 ≤ n ∧ n ≤ 256 then PyVal.npint n else PyVal.int n
  | v => v

/-- The part of `inspect.getargspec` that `Symbolic.trace` consults:
declared positional parameter names, the optional variadic-positional
name and the optional variadic-keyword name. -/
structure ArgSpec where
  args : List String
  varargs : Option String
  keywords : Option String
  deriving Repr, DecidableEq

/-- The name passed to `check` for extra positional arguments
(`symbolic.py` line 129): the declared varargs name, or the string form
of Python `None` when no varargs parameter exists. -/
def varargsLabel (spec : ArgSpec) : String :=
  match spec.varargs with
  | some n => n
  | none => "None"

/-- Pair each supplied positional argument with the name `check` receives
for it: declared names in order (`zip` truncates, line 125), then the
varargs label for every extra positional argument (lines 128-129). -/
def nameArgs (spec : ArgSpec) (args : List PyVal) : List (String × PyVal) :=
  spec.args.zip args ++
    (args.drop spec.args.length).map (fun a => (varargsLabel spec, a))

/-- Run `check` over a named argument list, stopping at the first error
(the loops of `symbolic.py` lines 125-129 raise at the first offender). -/
def checkAll : List (String × PyVal) → Except String (List PyVal)
  | [] => Except.ok []
  | (n, v) :: rest =>
    match check n v with
    | Except.error e => Except.error e
    | Except.ok v2 =>
      match checkAll rest with
      | Except.error e => Except.error e
      | Except.ok rest2 => Except.ok (v2 :: rest2)

/-- Run `check` over the keyword mapping (`symbolic.py` lines 131-132),
keeping keys, stopping at the first error. -/
def checkKwargs : List (String × PyVal) → Except String (List (String × PyVal))
  | [] => Except.ok []
  | (k, v) :: rest =>
    match check k v with
    | Except.error e => Except.error e
    | Except.ok v2 =>
      match checkKwargs rest with
      | Except.error e => Except.error e
      | Except.ok rest2 => Except.ok ((k, v2) :: rest2)

/-- `symbolic.py` lines 104-107: `None` becomes the empty tuple, a tuple
yields its elements, anything else is a `TypeError`. -/
def argsToList : Option PyVal → Option (List PyVal)
  | none => some []
  | some (PyVal.tuple xs) => some xs
  | some _ => none

/-- `symbolic.py` lines 109-112: `None` becomes the empty dict, a dict
yields its pairs, anything else is a `TypeError`. -/
def kwargsToPairs : Option PyVal → Option (List (String × PyVal))
  | none => some []
  | some (PyVal.dict ps) => some ps
  | some _ => none

/-- `symbolic.py` lines 104-134: the validation-and-reboxing prefix of
`Symbolic.trace`.  (The kwargs type error message literally says `args`
in the source, line 112.)  Returns the reboxed positional values and
keyword pairs that the rest of `trace` works with. -/
def traceValidate (spec : ArgSpec) (args kwargs : Option PyVal) :
    Except String (List PyVal × List (String × PyVal)) :=
  match argsToList args with
  | none => Except.error "args must be a tuple"
  | some argsList =>
    match kwargsToPairs kwargs with
    | none => Except.error "args must be a dict"
    | some kwPairs =>
      match checkAll (nameArgs spec argsList) with
      | Except.error e => Except.error e
      | Except.ok args2 =>
        match checkKwargs kwPairs with
        | Except.error e => Except.error e
        | Except.ok kw2 => Except.ok (args2, kw2)

/-!
## Arrays and the Vector-Flattening Compiler's flatten / unflatten maps
-/

/-- A concrete numpy array: a shape and the row-major element list. It is
well formed when `data.length = shape.prod` (numpy maintains this
invariant; `size` below is numpy `a.size = prod(shape)`). -/
structure NdArr (α : Type) where
  shape : List Nat
  data : List α
  deriving Repr, DecidableEq

/-- numpy `a.size`: the element count, the product of the shape. -/
def NdArr.size {α : Type} (a : NdArr α) : Nat := a.shape.prod

/-- numpy `ndarray.reshape`: succeeds exactly when the element count
matches the target shape's product. -/
def np_reshape {α : Type} (v : List α) (shape : List Nat) : Option (NdArr α) :=
  if v.length = shape.prod then some ⟨shape, v⟩ else none

/-- `symbolic.py` lines 527-528, `VectorArgs.vector_from_args`:
concatenate the row-major flattening of every argument, in order. -/
def vector_from_args {α : Type} (args : List (NdArr α)) : List α :=
  (args.map NdArr.data).flatten

/-- The loop of `symbolic.py` lines 531-536: slice
`vector[last_idx : last_idx + a.size]` (Python slicing clamps to the
available length, which `drop`/`take` model) and reshape to `a.shape`,
advancing `last_idx` by `a.size`; `none` models the numpy reshape error
on a size mismatch. -/
def argsFromVectorLoop {α : Type} (vector : List α) :
    List (NdArr α) → Nat → Option (List (NdArr α))
  | [], _ => some []
  | a :: rest, last_idx =>
    match np_reshape ((vector.drop last_idx).take a.size) a.shape with
    | none => none
    | some arr =>
      match argsFromVectorLoop vector rest (last_idx + a.size) with
      | none => none
      | some l => some (arr :: l)

/-- `symbolic.py` lines 530-536, `VectorArgs.args_from_vector`. -/
def args_from_vector {α : Type} (vector : List α) (orig_args : List (NdArr α)) :
    Option (List (NdArr α)) :=
  argsFromVectorLoop vector orig_args 0

/-!
## Shadow-map resolution after tracing (`Symbolic.trace`, lines 150-200)

Runtime objects are modelled by their identity (`id(obj) : Nat`); symbolic
shadows by opaque tokens (`Nat`).  `s_vars` is the identity shadow map.
-/

/-- First-match association lookup (Python `dict` membership plus
indexing, for the identity- and name-keyed shadow maps). -/
def assoc {κ β : Type} [DecidableEq κ] : List (κ × β) → κ → Option β
  | [], _ => none
  | (k, v) :: rest, key => if key = k then some v else assoc rest key

/-- One entry of the ordered call-argument mapping the resolution loop of
`Symbolic.trace` iterates over (lines 150-188).  Modelled from the spec:
`utils.orderedcallargs` is not under `src/`; per §2 it yields "a flat
record of which shadow corresponds to which argument", following the
stdlib call-binding contract the loop assumes: each declared positional
name binds one object (the loop's final branch), the variadic-positional
name binds the tuple of extra positional objects (first branch), and the
variadic-keyword name binds a string-keyed mapping (second branch). -/
inductive CallArg where
  | pos (name : String) (oid : Nat)
  | star (name : String) (oids : List Nat)
  | dstar (name : String) (pairs : List (String × Nat))
  deriving Repr, DecidableEq

/-- An `s_args` entry: a single shadow, or (for the variadic-positional
name) the tuple of its items' shadows. -/
inductive SArgVal where
  | one (sym : Nat)
  | tup (syms : List Nat)
  deriving Repr, DecidableEq

/-- `symbolic.py` lines 157-163: resolve each item of the variadic
tuple, raising a `KeyError` naming the (0-based) item index and the
variadic argument name on the first unresolvable item. -/
def resolveItems (svars : List (Nat × Nat)) (name : String) :
    List Nat → Nat → Except String (List Nat)
  | [], _ => Except.ok []
  | oid :: rest, i =>
    match assoc svars oid with
    | none => Except.error ("Unable to trace item " ++ toString i ++
        " of variable argument " ++ name ++ ".")
    | some sym =>
      match resolveItems svars name rest (i + 1) with
      | Except.error e => Except.error e
      | Except.ok syms => Except.ok (sym :: syms)

/-- `symbolic.py` lines 169-177: resolve each variadic-keyword pair,
raising a `KeyError` naming the keyword on the first failure. -/
def resolvePairs (svars : List (Nat × Nat)) :
    List (String × Nat) → Except String (List (String × SArgVal))
  | [] => Except.ok []
  | (n, oid) :: rest =>
    match assoc svars oid with
    | none => Except.error ("Unable to trace argument " ++ n ++ ".")
    | some sym =>
      match resolvePairs svars rest with
      | Except.error e => Except.error e
      | Except.ok entries => Except.ok ((n, SArgVal.one sym) :: entries)

/-- `symbolic.py` lines 150-188: build `s_args` from the ordered call
arguments by resolving every concrete argument through the identity
shadow map, raising a `KeyError` naming the offender on the first
failure.  (The `.name` field mutation on the shadows, lines 160/172/183,
is not modelled: shadows are opaque tokens here.) -/
def collectArgs (svars : List (Nat × Nat)) :
    List CallArg → Except String (List (String × SArgVal))
  | [] => Except.ok []
  | CallArg.star name oids :: rest =>
    match resolveItems svars name oids 0 with
    | Except.error e => Except.error e
    | Except.ok syms =>
      match collectArgs svars rest with
      | Except.error e => Except.error e
      | Except.ok entries => Except.ok ((name, SArgVal.tup syms) :: entries)
  | CallArg.dstar _ pairs :: rest =>
    match resolvePairs svars pairs with
    | Except.error e => Except.error e
    | Except.ok kwEntries =>
      match collectArgs svars rest with
      | Except.error e => Except.error e
      | Except.ok entries => Except.ok (kwEntries ++ entries)
  | CallArg.pos name oid :: rest =>
    match assoc svars oid with
    | none => Except.error ("Unable to trace argument " ++ name ++ ".")
    | some sym =>
      match collectArgs svars rest with
      | Except.error e => Except.error e
      | Except.ok entries => Except.ok ((name, SArgVal.one sym) :: entries)

/-- `symbolic.py` lines 190-200: resolve each returned value (by
identity) to its shadow, raising a `KeyError` giving the 1-based result
index on the first failure (`enumerate` is 0-based, the message adds 1). -/
def collectResults (svars : List (Nat × Nat)) :
    List Nat → Nat → Except String (List Nat)
  | [], _ => Except.ok []
  | rid :: rest, i =>
    match assoc svars rid with
    | none => Except.error ("Unable to trace result #" ++ toString (i + 1) ++
        " (indexed from 1).")
    | some sym =>
      match collectResults svars rest (i + 1) with
      | Except.error e => Except.error e
      | Except.ok syms => Except.ok (sym :: syms)

/-- Whether one call-argument entry resolves completely against the
identity shadow map. -/
def callArgResolvable (svars : List (Nat × Nat)) : CallArg → Bool
  | CallArg.pos _ oid => (assoc svars oid).isSome
  | CallArg.star _ oids => oids.all (fun oid => (assoc svars oid).isSome)
  | CallArg.dstar _ pairs => pairs.all (fun p => (assoc svars p.2).isSome)

/-!
## `Symbolic.get_symbolic_arg` (lines 255-282)
-/

/-- The error text of `symbolic.py` lines 273-275 / 280-282 (the source
formats `repr(x)`; string quoting of `repr` is not reproduced). -/
def notTracedMsg (x : PyVal) : String :=
  "Requested the symbolic variable shadowing object " ++ pyStr x ++
    ", but it was not traced."

/-- The error text of `symbolic.py` lines 266-268. -/
def smallIntSelectiveMsg : String :=
  "Small integer arguments can not be traced selectively. Either recast or redesign your function."

/-- `symbolic.py` lines 255-282, `Symbolic.get_symbolic_arg`: `x` is the
queried value together with its runtime identity `xid`.  Small plain
ints are rejected; strings are looked up in `s_args` by name; any other
object is looked up in `s_vars` by identity. -/
def get_symbolic_arg (s_args : List (String × SArgVal))
    (s_vars : List (Nat × Nat)) (x : PyVal) (xid : Nat) :
    Except String SArgVal :=
  match x with
  | PyVal.int n =>
    if -5 ≤ n ∧ n ≤ 256 then
      Except.error smallIntSelectiveMsg
    else
      match assoc s_vars xid with
      | some sym => Except.ok (SArgVal.one sym)
      | none => Except.error (notTracedMsg (PyVal.int n))
  | PyVal.str s =>
    (match assoc s_args s with
     | some v => Except.ok v
     | none => Except.error (notTracedMsg (PyVal.str s)))
  | v =>
    match assoc s_vars xid with
    | some sym => Except.ok (SArgVal.one sym)
    | none => Except.error (notTracedMsg v)

/-!
## The compiled-artifact cache (`Function` / `Gradient`, lines 285-361)
-/

/-- The variadic-positional binding produced by `utils.orderedcallargs`.
Modelled from the spec: `utils.orderedcallargs` is not under `src/`; §3
fixes the cache key as the "count of variadic positional arguments
actually supplied", and the stdlib call-binding contract the wrapper
assumes binds the positional arguments beyond the declared names to the
varargs parameter; `callargs.get(self.argspec.varargs, ())` (line 296)
is empty when no varargs parameter is declared (lookup of key `None`). -/
def callargsVarargsEntry (spec : ArgSpec) (args : List PyVal) : List PyVal :=
  match spec.varargs with
  | none => []
  | some _ => args.drop spec.args.length

/-- `symbolic.py` lines 290-296, `Function.cache_id`: the length of the
varargs binding.  Keyword arguments never bind to the varargs name, so
`kwargs` does not influence the id. -/
def cache_id (spec : ArgSpec) (args : List PyVal)
    (_kwargs : List (String × PyVal)) : Nat :=
  (callargsVarargsEntry spec args).length

/-- The spec wording of the cache key (§3): the count of variadic
positional arguments actually supplied — zero when the function declares
no variadic-positional parameter, otherwise the number of positional
arguments beyond the declared parameter names. -/
def countVariadicSupplied (spec : ArgSpec) (args : List PyVal) : Nat :=
  if spec.varargs.isSome then args.length - spec.args.length else 0

/-- The mutable state of a `Function` / `Gradient` compiler relevant to
caching: the compiled-artifact cache (`self._cache`; newest entry first,
matching dict overwrite-then-lookup) and a counter of compilations
performed.  A compiled callable is an opaque token — the value of the
compile counter when it was built; theano function objects are truthy,
so `if not fn` (line 320) tests presence only. -/
structure CompilerState where
  cache : List (Nat × Nat)
  compileCount : Nat
  deriving Repr, DecidableEq

/-- `Function.compile_function` (lines 298-315) and
`Gradient.compile_function` (lines 335-361) at the caching interface:
both build the graph, call `theano.function` (producing a fresh opaque
callable token), store it under `cache_id(args, kwargs)` and return it. -/
def compile_function (spec : ArgSpec) (st : CompilerState) (args : List PyVal)
    (kwargs : List (String × PyVal)) : Nat × CompilerState :=
  (st.compileCount,
   { cache := (cache_id spec args kwargs, st.compileCount) :: st.cache,
     compileCount := st.compileCount + 1 })

/-- `Function.call` (lines 317-324): look the arity key up in the cache,
compile on a miss, then invoke the callable.  Returns the invoked
callable's token and the post-call state. -/
def call (spec : ArgSpec) (st : CompilerState) (args : List PyVal)
    (kwargs : List (String × PyVal)) : Nat × CompilerState :=
  match assoc st.cache (cache_id spec args kwargs) with
  | some fn => (fn, st)
  | none => compile_function spec st args kwargs

/-!
## `HessianVector` (lines 364-421)
-/

/-- Modelled from the spec: `utils.as_seq` is not under `src/`; it
normalizes a value to a sequence — `None` becomes empty, a list or tuple
keeps its items, any other value becomes a one-element sequence (§4.2
supplies "a direction vector per differentiated input" through the
`_vectors` keyword, singly or as a sequence). -/
def as_seq : Option PyVal → List PyVal
  | none => []
  | some (PyVal.list xs) => xs
  | some (PyVal.tuple xs) => xs
  | some v => [v]

/-- Python `dict.pop`: the mapping without the given key. -/
def removeKey {β : Type} : List (String × β) → String → List (String × β)
  | [], _ => []
  | (k, v) :: rest, key =>
    if k = key then removeKey rest key else (k, v) :: removeKey rest key

/-- The error text of `symbolic.py` lines 409-410. -/
def missingVectorsMsg : String :=
  "Vectors must be passed the keyword _vectors."

/-- The error text of `symbolic.py` lines 414-415. -/
def vectorsCountMsg (expected received : Nat) : String :=
  "Expected " ++ toString expected ++ " items in _vectors; received " ++
    toString received ++ "."

/-- `symbolic.py` lines 405-419, the `wrapper` closure built inside
`HessianVector.compile_function`: pop the required `_vectors` keyword
(error if absent), normalize it to a tuple, require exactly one
direction vector per with-respect-to variable (error naming expected and
received counts), then invoke the compiled callable `fn` on the
positional arguments followed by the vectors. -/
def hv_wrapper (wrt : List PyVal) (fn : Nat) (args : List PyVal)
    (kwargs : List (String × PyVal)) :
    Except String (Nat × List PyVal × List (String × PyVal)) :=
  match assoc kwargs "_vectors" with
  | none => Except.error missingVectorsMsg
  | some v =>
    let vectors := as_seq (some v)
    if vectors.length ≠ wrt.length then
      Except.error (vectorsCountMsg wrt.length vectors.length)
    else
      Except.ok (fn, args ++ vectors, removeKey kwargs "_vectors")

/-- `symbolic.py` line 421: `HessianVector.compile_function` ends with
`return wrapper(fn)`, invoking the wrapper — with the freshly compiled
callable as its only positional argument and no keyword arguments —
instead of returning the wrapper itself. -/
def hv_compile_tail (wrt : List PyVal) (fn : Nat) :
    Except String (Nat × List PyVal × List (String × PyVal)) :=
  hv_wrapper wrt fn [PyVal.obj fn] []

/-- The classes declared in `symbolic.py` with their inheritance chains
(lines 13, 285, 327, 364, 424): `Symbolic`, `Function(Symbolic)`,
`Gradient(Function)`, `HessianVector(Function)`, `VectorArgs(Function)`.
`ancestors` lists each class followed by its base classes in method
resolution order. -/
inductive PyClass where
  | symbolic | function | gradient | hessianVector | vectorArgs
  deriving Repr, DecidableEq

def ancestors : PyClass → List PyClass
  | PyClass.symbolic => [PyClass.symbolic]
  | PyClass.function => [PyClass.function, PyClass.symbolic]
  | PyClass.gradient => [PyClass.gradient, PyClass.function, PyClass.symbolic]
  | PyClass.hessianVector =>
      [PyClass.hessianVector, PyClass.function, PyClass.symbolic]
  | PyClass.vectorArgs =>
      [PyClass.vectorArgs, PyClass.function, PyClass.symbolic]

/-- Python `isinstance` for these classes: membership in the ancestor
chain. -/
def isInstanceOf (c d : PyClass) : Bool := d ∈ ancestors c

/-- `symbolic.py` line 367: `HessianVector.__init__` begins with
`super(Gradient, self).__init__(...)`.  Python 2's `super(type, obj)`
raises `TypeError` unless `isinstance(obj, type)`; on success the bound
base-class `__init__` runs. -/
def hv_init (selfClass : PyClass) : Except String Unit :=
  if isInstanceOf selfClass PyClass.gradient then Except.ok ()
  else Except.error "super(type, obj): obj must be an instance or subtype of type"

/-!
## The Vector-Flattening Compiler's parameter layout
(`VectorArgs.get_theano_vars`, lines 485-525)
-/

/-- A traced leaf argument's shadow as the layout loop consults it:
shape (with `a.size = prod(shape)`), dtype, and broadcast pattern. -/
structure SymLeaf where
  shape : List Nat
  dtype : String
  broadcastable : List Bool
  deriving Repr, DecidableEq

/-- theano `a.size`: the leaf's element count. -/
def SymLeaf.size (a : SymLeaf) : Nat := a.shape.prod

/-- The vector-derived expression assigned to one leaf: the slice
`theta[lo:hi]` reshaped to the leaf's shape (line 504), or the single
element `theta[i]` for a scalar leaf (line 506). -/
inductive VecExpr where
  | slice (lo hi : Nat) (shape : List Nat)
  | index (i : Nat)
  deriving Repr, DecidableEq

/-- The offset into the flat vector at which an expression starts. -/
def VecExpr.offset : VecExpr → Nat
  | VecExpr.slice lo _ _ => lo
  | VecExpr.index i => i

/-- The number of vector elements an expression consumes. -/
def VecExpr.consumed : VecExpr → Nat
  | VecExpr.slice lo hi _ => hi - lo
  | VecExpr.index _ => 1

/-- The shape an expression reshapes its slice to (a single indexed
element is a scalar, shape `()`). -/
def VecExpr.eshape : VecExpr → List Nat
  | VecExpr.slice _ _ s => s
  | VecExpr.index _ => []

/-- One substitution-map entry built at lines 507-509:
`patternbroadcast(vector_arg.astype(str(a.dtype)), a.broadcastable)`. -/
structure MemoEntry where
  expr : VecExpr
  dtype : String
  broadcastable : List Bool
  deriving Repr, DecidableEq

/-- The loop body of `symbolic.py` lines 502-509 for one leaf at offset
`i`: `inputs[i : i + a.size].reshape(a.shape)` — or `inputs[i]` when the
shape is empty — cast to the leaf's dtype with the leaf's broadcast
pattern restored. -/
def layoutEntry (i : Nat) (a : SymLeaf) : MemoEntry :=
  ⟨if a.shape.isEmpty then VecExpr.index i
    else VecExpr.slice i (i + a.size) a.shape,
   a.dtype, a.broadcastable⟩

/-- `symbolic.py` lines 500-510: walk the flattened leaf arguments in
order, carving each leaf's `layoutEntry` out of the flat vector `theta`
and advancing `i` by `a.size`.  Returns the substitution entries in
order together with the final value of `i`. -/
def vaLayout : List SymLeaf → Nat → List MemoEntry × Nat
  | [], i => ([], i)
  | a :: rest, i =>
    let (entries, total) := vaLayout rest (i + a.size)
    (layoutEntry i a :: entries, total)

/-- The sum of the element counts of the first `k` leaves. -/
def prefixSize (leaves : List SymLeaf) (k : Nat) : Nat :=
  ((leaves.take k).map SymLeaf.size).sum

/-!
## `Symbolic.__init__` and the function heap (lines 37-57)
-/

/-- A Python function object as `Symbolic.__init__` manipulates it: the
argspec data plus the mutable `func_defaults` tuple (empty models both
an empty tuple and `None`, which are equally falsy at line 49). -/
structure PyFunc where
  args : List String
  varargs : Option String
  keywords : Option String
  defaults : List PyVal
  deriving Repr

/-- `copy.deepcopy` applied to a function object on a heap of function
objects (references are indices; distinct indices are distinct objects):
Python's `copy` module registers `types.FunctionType` as atomic
(`_deepcopy_atomic`), so `deepcopy` returns the very same object —
nothing is allocated and the reference is unchanged. -/
def deepcopyFunc (st : List PyFunc) (r : Nat) : List PyFunc × Nat := (st, r)

/-- `symbolic.py` lines 48-57: when defaults exist, walk
`zip(reversed(a.args), reversed(a.defaults))`, boxing each small-int
default, and assign the accumulated list directly to `func_defaults`.
(The accumulated list is in reversed order and the source does not
reverse it back before assigning.) -/
def normalizeDefaults (f : PyFunc) : PyFunc :=
  if f.defaults.isEmpty then f
  else { f with defaults :=
    (f.args.reverse.zip f.defaults.reverse).map (fun p => boxSmall p.2) }

/-- `symbolic.py` lines 37-57, the `pyfn` handling of
`Symbolic.__init__`: `self._pyfn = copy.deepcopy(pyfn)` followed by
default normalization performed on `self._pyfn`, as a transformation of
the function heap.  Returns the heap after construction and the
reference stored in `self._pyfn`. -/
def symbolicInitPyfn (st : List PyFunc) (r : Nat) : List PyFunc × Nat :=
  let (st1, r1) := deepcopyFunc st r
  let f := st1.getD r1 ⟨[], none, none, []⟩
  (st1.set r1 (normalizeDefaults f), r1)

/-!
## `Symbolic.trace` reboxing as a heap effect (lines 123-134)
-/

/-- `Symbolic.trace` lines 123-134 as a transformation of the object
heap: `args = list(args)` copies the positional tuple into a fresh local
list, which is reboxed and re-tupled locally (lines 123-129, 134), while
the keyword loop (lines 131-132) assigns `check`ed values back into the
caller's dict through the `kwargs` reference.  Returns the heap after
the reboxing phase together with the local positional tuple.  (Non-tuple
/ non-dict inputs were already rejected at lines 104-112, `traceValidate`.) -/
def traceRebox (spec : ArgSpec) (st : List PyVal) (argsRef kwargsRef : Nat) :
    Except String (List PyVal × List PyVal) :=
  match st.getD argsRef (PyVal.obj 0), st.getD kwargsRef (PyVal.obj 0) with
  | PyVal.tuple argsList, PyVal.dict kwPairs =>
    (match checkAll (nameArgs spec argsList) with
     | Except.error e => Except.error e
     | Except.ok args2 =>
       match checkKwargs kwPairs with
       | Except.error e => Except.error e
       | Except.ok kw2 => Except.ok (st.set kwargsRef (PyVal.dict kw2), args2))
  | _, _ => Except.error "args must be a tuple"

/-!
## `VectorArgs.__init__` (lines 425-444)
-/

/-- The error text of `symbolic.py` lines 435-437. -/
def vaFlagsMsg : String :=
  "At least one of compile_fn, compile_grad, or compile_hv must be True."

/-- The world state threaded through `VectorArgs` construction: counters
of traces and compilations performed, plus the instance cache
(created empty by `Symbolic.__init__`, line 43). -/
structure VAState where
  traceCount : Nat
  compileCount : Nat
  cache : List (Nat × Nat)
  deriving Repr, DecidableEq

/-- `VectorArgs.compile_function` (lines 446-483) at the trace/cache
interface: `get_theano_vars` re-traces the target (line 492), the theano
graph and compilation work is external, and the compiled callable (a
fresh opaque token) is stored under `cache_id(args, kwargs)` (line 481)
and returned. -/
def va_compile_function (spec : ArgSpec) (st : VAState) (args : List PyVal)
    (kwargs : List (String × PyVal)) : Nat × VAState :=
  (st.compileCount,
   { traceCount := st.traceCount + 1,
     compileCount := st.compileCount + 1,
     cache := (cache_id spec args kwargs, st.compileCount) :: st.cache })

/-- `VectorArgs.__init__` (lines 425-444): reject an all-false
compile-target combination before anything else (lines 434-437);
otherwise run the base construction and compile eagerly on the supplied
initial arguments (line 444). -/
def va_init (spec : ArgSpec) (cfn cgrad chv : Bool) (initArgs : List PyVal)
    (initKwargs : List (String × PyVal)) (world : VAState) :
    VAState × Except String Unit :=
  if ¬ (cfn || cgrad || chv) then
    (world, Except.error vaFlagsMsg)
  else
    ((va_compile_function spec world initArgs initKwargs).2, Except.ok ())

/-!
## Theorems
-/

theorem vector_from_args_cons {α : Type} (a : NdArr α) (rest : List (NdArr α)) :
    vector_from_args (a :: rest) = a.data ++ vector_from_args rest := by
  simp [vector_from_args]

theorem argsFromVectorLoop_eq {α : Type} (args : List (NdArr α)) :
    ∀ (vector : List α) (i : Nat),
      (∀ a ∈ args, a.data.length = a.shape.prod) →
      vector.drop i = vector_from_args args →
      argsFromVectorLoop vector args i = some args := by
  induction args with
  | nil => intro v i _ _; rfl
  | cons a rest ih =>
    intro v i hwf hdrop
    have hsize : a.data.length = a.shape.prod := hwf a (by simp)
    have hv : v.drop i = a.data ++ vector_from_args rest := by
      rw [hdrop, vector_from_args_cons]
    have hlen : a.size = a.data.length := by
      simp [NdArr.size, hsize]
    have hslice : (v.drop i).take a.size = a.data := by
      rw [hv, hlen, List.take_left]
    have hrest : v.drop (i + a.size) = vector_from_args rest := by
      have h1 : v.drop (i + a.size) = (v.drop i).drop a.size := by
        rw [List.drop_drop]
      rw [h1, hv, hlen, List.drop_left]
    have hih := ih v (i + a.size) (fun x hx => hwf x (by simp [hx])) hrest
    simp only [argsFromVectorLoop, hslice, np_reshape, hsize, if_pos, hih]

/-- C1: for every list of well-formed array leaves,
`args_from_vector(vector_from_args(a), a)` reconstructs `a` exactly —
one array per element, in order, with the original shape and contents
(`symbolic.py` lines 527-536). -/
theorem args_vector_roundtrip {α : Type} (a : List (NdArr α))
    (h : ∀ x ∈ a, x.data.length = x.shape.prod) :
    args_from_vector (vector_from_args a) a = some a :=
  argsFromVectorLoop_eq a (vector_from_args a) 0 h rfl

/-- Witness for C1 at a concrete argument list: a vector, a scalar and a
2×2 matrix of integers. -/
theorem args_vector_roundtrip_witness :
    (∀ x ∈ ([⟨[2], [10, 20]⟩, ⟨[], [30]⟩, ⟨[2, 2], [1, 2, 3, 4]⟩] :
        List (NdArr Int)), x.data.length = x.shape.prod) ∧
    args_from_vector
        (vector_from_args
          ([⟨[2], [10, 20]⟩, ⟨[], [30]⟩, ⟨[2, 2], [1, 2, 3, 4]⟩] :
            List (NdArr Int)))
        [⟨[2], [10, 20]⟩, ⟨[], [30]⟩, ⟨[2, 2], [1, 2, 3, 4]⟩] =
      some [⟨[2], [10, 20]⟩, ⟨[], [30]⟩, ⟨[2, 2], [1, 2, 3, 4]⟩] :=
  ⟨by decide, args_vector_roundtrip _ (by decide)⟩

theorem prefixSize_zero (leaves : List SymLeaf) : prefixSize leaves 0 = 0 := by
  simp [prefixSize]

theorem prefixSize_cons_succ (b : SymLeaf) (rest : List SymLeaf) (k : Nat) :
    prefixSize (b :: rest) (k + 1) = b.size + prefixSize rest k := by
  simp [prefixSize]

theorem vaLayout_total (leaves : List SymLeaf) :
    ∀ i, (vaLayout leaves i).2 = i + (leaves.map SymLeaf.size).sum := by
  induction leaves with
  | nil => intro i; simp [vaLayout]
  | cons a rest ih =>
    intro i
    simp only [vaLayout, ih (i + a.size), List.map_cons, List.sum_cons]
    omega

theorem vaLayout_get (leaves : List SymLeaf) :
    ∀ (i k : Nat) (a : SymLeaf), leaves[k]? = some a →
      (vaLayout leaves i).1[k]? = some (layoutEntry (i + prefixSize leaves k) a) := by
  induction leaves with
  | nil => intro i k a h; simp at h
  | cons b rest ih =>
    intro i k a h
    cases k with
    | zero =>
      simp only [List.getElem?_cons_zero, Option.some.injEq] at h
      subst h
      simp [vaLayout, prefixSize_zero]
    | succ k =>
      simp only [List.getElem?_cons_succ] at h
      have hih := ih (i + b.size) k a h
      have hoff : i + b.size + prefixSize rest k =
          i + prefixSize (b :: rest) (k + 1) := by
        rw [prefixSize_cons_succ]; omega
      simp only [vaLayout, List.getElem?_cons_succ]
      rw [hih, hoff]

theorem layoutEntry_offset (i : Nat) (a : SymLeaf) :
    (layoutEntry i a).expr.offset = i := by
  by_cases h : a.shape.isEmpty <;>
    simp [layoutEntry, h, VecExpr.offset]

theorem layoutEntry_consumed (i : Nat) (a : SymLeaf) :
    (layoutEntry i a).expr.consumed = a.size := by
  by_cases h : a.shape.isEmpty
  · have hnil : a.shape = [] := by
      cases hs : a.shape with
      | nil => rfl
      | cons x xs => rw [hs] at h; simp at h
    simp [layoutEntry, h, VecExpr.consumed, SymLeaf.size, hnil]
  · simp [layoutEntry, h, VecExpr.consumed]

theorem layoutEntry_eshape (i : Nat) (a : SymLeaf) :
    (layoutEntry i a).expr.eshape = a.shape := by
  by_cases h : a.shape.isEmpty
  · have hnil : a.shape = [] := by
      cases hs : a.shape with
      | nil => rfl
      | cons x xs => rw [hs] at h; simp at h
    simp [layoutEntry, h, VecExpr.eshape, hnil]
  · simp [layoutEntry, h, VecExpr.eshape]

/-- C2: in `VectorArgs.get_theano_vars` (lines 485-525), the `k`-th
traced leaf receives the substitution entry at offset equal to the sum
of the element counts of the preceding leaves, consuming exactly its own
element count, reshaped to its shape, cast to its dtype, with its
broadcast pattern; and the final offset — the total vector length
consumed — is the sum of all leaves' element counts, so the entries
partition a prefix of the flat vector. -/
theorem vector_parameter_layout (leaves : List SymLeaf) (k : Nat) (a : SymLeaf)
    (h : leaves[k]? = some a) :
    (vaLayout leaves 0).1[k]? = some (layoutEntry (prefixSize leaves k) a) ∧
    (layoutEntry (prefixSize leaves k) a).expr.offset = prefixSize leaves k ∧
    (layoutEntry (prefixSize leaves k) a).expr.consumed = a.size ∧
    (layoutEntry (prefixSize leaves k) a).expr.eshape = a.shape ∧
    (layoutEntry (prefixSize leaves k) a).dtype = a.dtype ∧
    (layoutEntry (prefixSize leaves k) a).broadcastable = a.broadcastable ∧
    (vaLayout leaves 0).2 = (leaves.map SymLeaf.size).sum := by
  refine ⟨?_, layoutEntry_offset _ _, layoutEntry_consumed _ _,
    layoutEntry_eshape _ _, rfl, rfl, ?_⟩
  · have := vaLayout_get leaves 0 k a h
    simpa using this
  · simpa using vaLayout_total leaves 0

/-- Witness for C2: three leaves (a 2×3 matrix, a scalar, a length-4
vector); the third entry starts at offset 7 and the total is 11. -/
theorem vector_parameter_layout_witness :
    ([⟨[2, 3], "float64", [false, false]⟩, ⟨[], "int64", []⟩,
      ⟨[4], "float32", [false]⟩] : List SymLeaf)[2]? =
        some ⟨[4], "float32", [false]⟩ ∧
    (vaLayout [⟨[2, 3], "float64", [false, false]⟩, ⟨[], "int64", []⟩,
      ⟨[4], "float32", [false]⟩] 0).1[2]? =
        some (layoutEntry
          (prefixSize [⟨[2, 3], "float64", [false, false]⟩,
            ⟨[], "int64", []⟩, ⟨[4], "float32", [false]⟩] 2)
          ⟨[4], "float32", [false]⟩) ∧
    prefixSize [⟨[2, 3], "float64", [false, false]⟩, ⟨[], "int64", []⟩,
      ⟨[4], "float32", [false]⟩] 2 = 7 ∧
    (vaLayout [⟨[2, 3], "float64", [false, false]⟩, ⟨[], "int64", []⟩,
      ⟨[4], "float32", [false]⟩] 0).2 = 11 :=
  ⟨rfl,
   (vector_parameter_layout _ 2 _ rfl).1,
   rfl,
   by
    rw [(vector_parameter_layout
      ([⟨[2, 3], "float64", [false, false]⟩, ⟨[], "int64", []⟩,
        ⟨[4], "float32", [false]⟩] : List SymLeaf) 2
      ⟨[4], "float32", [false]⟩ rfl).2.2.2.2.2.2]
    rfl⟩

/-- C3: `cache_id` is the count of variadic positional arguments
actually supplied (kwargs are immaterial), and a second `call` with the
same call arity invokes the callable stored in the cache by the first
call, leaving the compiler state — cache and compilation counter —
untouched, so nothing is recompiled. -/
theorem function_cache_reuse (spec : ArgSpec) (st : CompilerState)
    (args args2 : List PyVal) (kwargs kwargs2 : List (String × PyVal))
    (h : cache_id spec args2 kwargs2 = cache_id spec args kwargs) :
    cache_id spec args kwargs = countVariadicSupplied spec args ∧
    call spec (call spec st args kwargs).2 args2 kwargs2 =
      ((call spec st args kwargs).1, (call spec st args kwargs).2) := by
  constructor
  · cases hv : spec.varargs with
    | none =>
      simp [cache_id, callargsVarargsEntry, countVariadicSupplied, hv]
    | some n =>
      simp [cache_id, callargsVarargsEntry, countVariadicSupplied, hv]
  · cases hc : assoc st.cache (cache_id spec args kwargs) with
    | some fn => simp [call, hc, h]
    | none => simp [call, hc, h, compile_function, assoc]

/-- Witness for C3: a function `f(x, *va)` called twice with two
variadic arguments; the second call returns the first call's cached
callable and the state is unchanged. -/
theorem function_cache_reuse_witness :
    cache_id ⟨["x"], some "va", none⟩
        [PyVal.obj 1, PyVal.obj 2, PyVal.obj 3] [] =
      countVariadicSupplied ⟨["x"], some "va", none⟩
        [PyVal.obj 1, PyVal.obj 2, PyVal.obj 3] ∧
    call ⟨["x"], some "va", none⟩
        (call ⟨["x"], some "va", none⟩ ⟨[], 0⟩
          [PyVal.obj 1, PyVal.obj 2, PyVal.obj 3] []).2
        [PyVal.obj 1, PyVal.obj 2, PyVal.obj 3] [] =
      ((call ⟨["x"], some "va", none⟩ ⟨[], 0⟩
          [PyVal.obj 1, PyVal.obj 2, PyVal.obj 3] []).1,
       (call ⟨["x"], some "va", none⟩ ⟨[], 0⟩
          [PyVal.obj 1, PyVal.obj 2, PyVal.obj 3] []).2) :=
  function_cache_reuse ⟨["x"], some "va", none⟩ ⟨[], 0⟩
    [PyVal.obj 1, PyVal.obj 2, PyVal.obj 3]
    [PyVal.obj 1, PyVal.obj 2, PyVal.obj 3] [] [] rfl

theorem hv_wrapper_requires_vectors (wrt : List PyVal) (fn : Nat)
    (args : List PyVal) :
    hv_wrapper wrt fn args [] = Except.error missingVectorsMsg := rfl

theorem hv_wrapper_count_mismatch_example (fn : Nat) :
    hv_wrapper [PyVal.obj 5] fn []
        [("_vectors", PyVal.tuple [PyVal.obj 8, PyVal.obj 9])] =
      Except.error "Expected 1 items in _vectors; received 2." := rfl

/-- C4 (code defect): the compiled form of a `HessianVector` compiler
can never be invoked as the claim describes.  Construction already
fails: `HessianVector.__init__` (line 367) calls
`super(Gradient, self).__init__` although `HessianVector` subclasses
`Function`, not `Gradient`, so Python's `super` rejects `self`.  Even
with construction bypassed, `compile_function` ends with
`return wrapper(fn)` (line 421), invoking the wrapper during compilation
— with no `_vectors` keyword — so the missing-keyword usage error is
raised at compile time and no compiled form is ever returned, for any
`wrt` and any compiled callable. -/
theorem hessianvector_compiled_form_unreachable :
    hv_init PyClass.hessianVector =
      Except.error "super(type, obj): obj must be an instance or subtype of type" ∧
    ∀ (wrt : List PyVal) (fn : Nat),
      hv_compile_tail wrt fn = Except.error missingVectorsMsg :=
  ⟨rfl, fun _ _ => rfl⟩

theorem check_ok_of_not_container (n : String) (v : PyVal)
    (h : isContainer v = false) : check n v = Except.ok (boxSmall v) := by
  cases v with
  | int m => simp only [check, boxSmall]; split <;> rfl
  | list xs => simp [isContainer] at h
  | tuple xs => simp [isContainer] at h
  | dict xs => simp [isContainer] at h
  | npint m => rfl
  | str s => rfl
  | obj o => rfl

theorem check_error_of_container (n : String) (v : PyVal)
    (h : isContainer v = true) : check n v = Except.error (containerMsg n v) := by
  cases v <;> simp_all [check, isContainer]

theorem check_ok_val (n : String) (v w : PyVal)
    (h : check n v = Except.ok w) : w = boxSmall v := by
  by_cases hc : isContainer v = true
  · rw [check_error_of_container n v hc] at h; cases h
  · rw [check_ok_of_not_container n v (by simpa using hc)] at h
    cases h; rfl

theorem checkAll_ok (l : List (String × PyVal))
    (h : ∀ p ∈ l, isContainer p.2 = false) :
    checkAll l = Except.ok (l.map fun p => boxSmall p.2) := by
  induction l with
  | nil => rfl
  | cons p rest ih =>
    obtain ⟨n, v⟩ := p
    have h1 : isContainer v = false := h (n, v) (by simp)
    simp only [checkAll, check_ok_of_not_container n v h1,
      ih (fun q hq => h q (List.mem_cons_of_mem _ hq)), List.map_cons]

theorem checkAll_error (pre : List (String × PyVal)) (n : String) (v : PyVal)
    (post : List (String × PyVal))
    (hpre : ∀ p ∈ pre, isContainer p.2 = false) (hv : isContainer v = true) :
    checkAll (pre ++ (n, v) :: post) = Except.error (containerMsg n v) := by
  induction pre with
  | nil => simp [checkAll, check_error_of_container n v hv]
  | cons q rest ih =>
    obtain ⟨qn, qv⟩ := q
    have h1 : isContainer qv = false := hpre (qn, qv) (by simp)
    simp only [List.cons_append, checkAll, check_ok_of_not_container qn qv h1,
      List.append_eq, ih (fun p hp => hpre p (List.mem_cons_of_mem _ hp))]

theorem checkKwargs_ok (l : List (String × PyVal))
    (h : ∀ p ∈ l, isContainer p.2 = false) :
    checkKwargs l = Except.ok (l.map fun p => (p.1, boxSmall p.2)) := by
  induction l with
  | nil => rfl
  | cons p rest ih =>
    obtain ⟨k, v⟩ := p
    have h1 : isContainer v = false := h (k, v) (by simp)
    simp only [checkKwargs, check_ok_of_not_container k v h1,
      ih (fun q hq => h q (List.mem_cons_of_mem _ hq)), List.map_cons]

theorem checkKwargs_error (pre : List (String × PyVal)) (k : String)
    (v : PyVal) (post : List (String × PyVal))
    (hpre : ∀ p ∈ pre, isContainer p.2 = false) (hv : isContainer v = true) :
    checkKwargs (pre ++ (k, v) :: post) = Except.error (containerMsg k v) := by
  induction pre with
  | nil => simp [checkKwargs, check_error_of_container k v hv]
  | cons q rest ih =>
    obtain ⟨qn, qv⟩ := q
    have h1 : isContainer qv = false := hpre (qn, qv) (by simp)
    simp only [List.cons_append, checkKwargs, check_ok_of_not_container qn qv h1,
      List.append_eq, ih (fun p hp => hpre p (List.mem_cons_of_mem _ hp))]

theorem checkKwargs_ok_val (l r : List (String × PyVal))
    (h : checkKwargs l = Except.ok r) :
    r = l.map fun p => (p.1, boxSmall p.2) := by
  induction l generalizing r with
  | nil =>
    simp only [checkKwargs] at h
    cases h; rfl
  | cons p rest ih =>
    obtain ⟨k, v⟩ := p
    simp only [checkKwargs] at h
    cases hc : check k v with
    | error e => rw [hc] at h; cases h
    | ok v2 =>
      rw [hc] at h
      cases hr : checkKwargs rest with
      | error e => rw [hr] at h; cases h
      | ok rest2 =>
        rw [hr] at h
        cases h
        rw [check_ok_val k v v2 hc, ih rest2 hr]
        simp

theorem checkAll_ok_val (l : List (String × PyVal)) (r : List PyVal)
    (h : checkAll l = Except.ok r) :
    r = l.map fun p => boxSmall p.2 := by
  induction l generalizing r with
  | nil =>
    simp only [checkAll] at h
    cases h; rfl
  | cons p rest ih =>
    obtain ⟨n, v⟩ := p
    simp only [checkAll] at h
    cases hc : check n v with
    | error e => rw [hc] at h; cases h
    | ok v2 =>
      rw [hc] at h
      cases hr : checkAll rest with
      | error e => rw [hr] at h; cases h
      | ok rest2 =>
        rw [hr] at h
        cases h
        rw [check_ok_val n v v2 hc, ih rest2 hr]
        simp

/-- C5: `Symbolic.trace` rejects a non-tuple `args` and a non-mapping
`kwargs` with type errors; rejects any individual list/tuple/dict
argument — positional, variadic-positional (the `nameArgs` labelling) or
keyword — with a type error naming that argument; and on acceptance
every plain int in `-5..256`, wherever supplied, has been replaced by a
boxed numeric value (`boxSmall`) before the trace proper is invoked. -/
theorem trace_argument_validation (spec : ArgSpec) (args kwargs : Option PyVal) :
    (argsToList args = none →
      traceValidate spec args kwargs = Except.error "args must be a tuple") ∧
    (∀ xs, argsToList args = some xs → kwargsToPairs kwargs = none →
      traceValidate spec args kwargs = Except.error "args must be a dict") ∧
    (∀ xs ps, argsToList args = some xs → kwargsToPairs kwargs = some ps →
      (∀ p ∈ nameArgs spec xs, isContainer p.2 = false) →
      (∀ p ∈ ps, isContainer p.2 = false) →
      traceValidate spec args kwargs =
        Except.ok ((nameArgs spec xs).map (fun p => boxSmall p.2),
          ps.map (fun p => (p.1, boxSmall p.2)))) ∧
    (∀ xs ps pre n v post, argsToList args = some xs →
      kwargsToPairs kwargs = some ps →
      nameArgs spec xs = pre ++ (n, v) :: post →
      (∀ p ∈ pre, isContainer p.2 = false) → isContainer v = true →
      traceValidate spec args kwargs = Except.error (containerMsg n v)) ∧
    (∀ xs ps pre k v post, argsToList args = some xs →
      kwargsToPairs kwargs = some ps →
      (∀ p ∈ nameArgs spec xs, isContainer p.2 = false) →
      ps = pre ++ (k, v) :: post →
      (∀ p ∈ pre, isContainer p.2 = false) → isContainer v = true →
      traceValidate spec args kwargs = Except.error (containerMsg k v)) := by
  refine ⟨?_, ?_, ?_, ?_, ?_⟩
  · intro h; simp [traceValidate, h]
  · intro xs h1 h2; simp [traceValidate, h1, h2]
  · intro xs ps h1 h2 h3 h4
    simp [traceValidate, h1, h2, checkAll_ok _ h3, checkKwargs_ok _ h4]
  · intro xs ps pre n v post h1 h2 h3 h4 h5
    simp [traceValidate, h1, h2, h3, checkAll_error pre n v post h4 h5]
  · intro xs ps pre k v post h1 h2 h3 h4 h5 h6
    simp [traceValidate, h1, h2, checkAll_ok _ h3, h4,
      checkKwargs_error pre k v post h5 h6]

/-- Witness for C5, for `f(x, y)`: a list passed as `args` is a type
error; a small-int positional and keyword argument are reboxed; a list
passed as the first positional argument is rejected naming `x`. -/
theorem trace_argument_validation_witness :
    traceValidate ⟨["x", "y"], none, none⟩ (some (PyVal.list [])) none =
      Except.error "args must be a tuple" ∧
    traceValidate ⟨["x", "y"], none, none⟩ (some (PyVal.tuple [PyVal.int 3]))
        (some (PyVal.dict [("k", PyVal.int 7)])) =
      Except.ok ([PyVal.npint 3], [("k", PyVal.npint 7)]) ∧
    traceValidate ⟨["x", "y"], none, none⟩
        (some (PyVal.tuple [PyVal.list [PyVal.int 1]])) (some (PyVal.dict [])) =
      Except.error (containerMsg "x" (PyVal.list [PyVal.int 1])) := by
  refine ⟨?_, ?_, ?_⟩
  · exact (trace_argument_validation ⟨["x", "y"], none, none⟩
      (some (PyVal.list [])) none).1 rfl
  · have h := (trace_argument_validation ⟨["x", "y"], none, none⟩
      (some (PyVal.tuple [PyVal.int 3]))
      (some (PyVal.dict [("k", PyVal.int 7)]))).2.2.1
      [PyVal.int 3] [("k", PyVal.int 7)] rfl rfl (by decide) (by decide)
    rw [h]; rfl
  · exact (trace_argument_validation ⟨["x", "y"], none, none⟩
      (some (PyVal.tuple [PyVal.list [PyVal.int 1]]))
      (some (PyVal.dict []))).2.2.2.1
      [PyVal.list [PyVal.int 1]] [] [] "x" (PyVal.list [PyVal.int 1]) []
      rfl rfl rfl (by simp) rfl

theorem resolveItems_ok_ex (svars : List (Nat × Nat)) (name : String)
    (oids : List Nat) :
    ∀ i, (∀ oid ∈ oids, (assoc svars oid).isSome = true) →
      ∃ syms, resolveItems svars name oids i = Except.ok syms := by
  induction oids with
  | nil => intro i _; exact ⟨[], rfl⟩
  | cons oid rest ih =>
    intro i h
    obtain ⟨sym, hsym⟩ :=
      Option.isSome_iff_exists.mp (h oid (by simp))
    obtain ⟨syms, hsyms⟩ := ih (i + 1) (fun x hx => h x (by simp [hx]))
    exact ⟨sym :: syms, by simp [resolveItems, hsym, hsyms]⟩

theorem resolvePairs_ok_ex (svars : List (Nat × Nat))
    (pairs : List (String × Nat))
    (h : ∀ p ∈ pairs, (assoc svars p.2).isSome = true) :
    ∃ entries, resolvePairs svars pairs = Except.ok entries := by
  induction pairs with
  | nil => exact ⟨[], rfl⟩
  | cons p rest ih =>
    obtain ⟨n, oid⟩ := p
    obtain ⟨sym, hsym⟩ :=
      Option.isSome_iff_exists.mp (h (n, oid) (by simp))
    obtain ⟨entries, hentries⟩ := ih (fun q hq => h q (by simp [hq]))
    exact ⟨(n, SArgVal.one sym) :: entries,
      by simp [resolvePairs, hsym, hentries]⟩

theorem collectArgs_cons_err (svars : List (Nat × Nat)) (c : CallArg)
    (rest : List CallArg) (e : String)
    (hc : callArgResolvable svars c = true)
    (h : collectArgs svars rest = Except.error e) :
    collectArgs svars (c :: rest) = Except.error e := by
  cases c with
  | pos name oid =>
    simp only [callArgResolvable] at hc
    obtain ⟨sym, hsym⟩ := Option.isSome_iff_exists.mp hc
    simp [collectArgs, hsym, h]
  | star name oids =>
    simp only [callArgResolvable] at hc
    obtain ⟨syms, hsyms⟩ := resolveItems_ok_ex svars name oids 0
      (fun x hx => List.all_eq_true.mp hc x hx)
    simp [collectArgs, hsyms, h]
  | dstar name pairs =>
    simp only [callArgResolvable] at hc
    obtain ⟨entries, hentries⟩ := resolvePairs_ok_ex svars pairs
      (fun p hp => List.all_eq_true.mp hc p hp)
    simp [collectArgs, hentries, h]

theorem collectArgs_append_err (svars : List (Nat × Nat))
    (pre : List CallArg) (rest : List CallArg) (e : String)
    (hpre : ∀ c ∈ pre, callArgResolvable svars c = true)
    (h : collectArgs svars rest = Except.error e) :
    collectArgs svars (pre ++ rest) = Except.error e := by
  induction pre with
  | nil => simpa using h
  | cons c cs ih =>
    exact collectArgs_cons_err svars c (cs ++ rest) e (hpre c (by simp))
      (ih (fun d hd => hpre d (by simp [hd])))

theorem resolveItems_first_err (svars : List (Nat × Nat)) (name : String) :
    ∀ (pre : List Nat) (oid : Nat) (post : List Nat) (i : Nat),
      (∀ x ∈ pre, (assoc svars x).isSome = true) → assoc svars oid = none →
      resolveItems svars name (pre ++ oid :: post) i =
        Except.error ("Unable to trace item " ++ toString (i + pre.length) ++
          " of variable argument " ++ name ++ ".") := by
  intro pre
  induction pre with
  | nil =>
    intro oid post i _ hnone
    simp [resolveItems, hnone]
  | cons x rest ih =>
    intro oid post i hpre hnone
    obtain ⟨sym, hsym⟩ :=
      Option.isSome_iff_exists.mp (hpre x (by simp))
    have hrec := ih oid post (i + 1) (fun y hy => hpre y (by simp [hy])) hnone
    have hgoal : i + (x :: rest).length = (i + 1) + rest.length := by
      simp only [List.length_cons]; omega
    rw [hgoal]
    simp [resolveItems, hsym, hrec]

theorem resolvePairs_first_err (svars : List (Nat × Nat)) :
    ∀ (pre : List (String × Nat)) (n : String) (oid : Nat)
      (post : List (String × Nat)),
      (∀ p ∈ pre, (assoc svars p.2).isSome = true) → assoc svars oid = none →
      resolvePairs svars (pre ++ (n, oid) :: post) =
        Except.error ("Unable to trace argument " ++ n ++ ".") := by
  intro pre
  induction pre with
  | nil =>
    intro n oid post _ hnone
    simp [resolvePairs, hnone]
  | cons q rest ih =>
    intro n oid post hpre hnone
    obtain ⟨qn, qoid⟩ := q
    obtain ⟨sym, hsym⟩ :=
      Option.isSome_iff_exists.mp (hpre (qn, qoid) (by simp))
    have hrec := ih n oid post (fun p hp => hpre p (by simp [hp])) hnone
    simp [resolvePairs, hsym, hrec]

theorem collectResults_first_err (svars : List (Nat × Nat)) :
    ∀ (pre : List Nat) (rid : Nat) (post : List Nat) (i : Nat),
      (∀ x ∈ pre, (assoc svars x).isSome = true) → assoc svars rid = none →
      collectResults svars (pre ++ rid :: post) i =
        Except.error ("Unable to trace result #" ++
          toString (i + pre.length + 1) ++ " (indexed from 1).") := by
  intro pre
  induction pre with
  | nil =>
    intro rid post i _ hnone
    simp [collectResults, hnone]
  | cons x rest ih =>
    intro rid post i hpre hnone
    obtain ⟨sym, hsym⟩ :=
      Option.isSome_iff_exists.mp (hpre x (by simp))
    have hrec := ih rid post (i + 1) (fun y hy => hpre y (by simp [hy])) hnone
    have hgoal : i + (x :: rest).length + 1 = (i + 1) + rest.length + 1 := by
      simp only [List.length_cons]; omega
    rw [hgoal]
    simp [collectResults, hsym, hrec]

/-- C6: after the traced execution, the first formal argument that
cannot be resolved through the identity shadow map raises a lookup error
naming that argument (positional or keyword), a failing item of the
variadic-positional tuple raises a lookup error giving the item index
and the variadic name, and a failing returned value raises a lookup
error giving the result's 1-based index (`symbolic.py` lines 150-200). -/
theorem trace_resolution_errors (svars : List (Nat × Nat)) :
    (∀ pre name oid post, (∀ c ∈ pre, callArgResolvable svars c = true) →
      assoc svars oid = none →
      collectArgs svars (pre ++ CallArg.pos name oid :: post) =
        Except.error ("Unable to trace argument " ++ name ++ ".")) ∧
    (∀ pre name ids oid ids2 post,
      (∀ c ∈ pre, callArgResolvable svars c = true) →
      (∀ x ∈ ids, (assoc svars x).isSome = true) → assoc svars oid = none →
      collectArgs svars (pre ++ CallArg.star name (ids ++ oid :: ids2) :: post) =
        Except.error ("Unable to trace item " ++ toString ids.length ++
          " of variable argument " ++ name ++ ".")) ∧
    (∀ pre kname pairs1 n oid pairs2 post,
      (∀ c ∈ pre, callArgResolvable svars c = true) →
      (∀ p ∈ pairs1, (assoc svars p.2).isSome = true) → assoc svars oid = none →
      collectArgs svars
          (pre ++ CallArg.dstar kname (pairs1 ++ (n, oid) :: pairs2) :: post) =
        Except.error ("Unable to trace argument " ++ n ++ ".")) ∧
    (∀ pre rid post, (∀ x ∈ pre, (assoc svars x).isSome = true) →
      assoc svars rid = none →
      collectResults svars (pre ++ rid :: post) 0 =
        Except.error ("Unable to trace result #" ++ toString (pre.length + 1) ++
          " (indexed from 1).")) := by
  refine ⟨?_, ?_, ?_, ?_⟩
  · intro pre name oid post hpre hnone
    refine collectArgs_append_err svars pre _ _ hpre ?_
    simp [collectArgs, hnone]
  · intro pre name ids oid ids2 post hpre hids hnone
    refine collectArgs_append_err svars pre _ _ hpre ?_
    have h := resolveItems_first_err svars name ids oid ids2 0 hids hnone
    simp only [Nat.zero_add] at h
    simp [collectArgs, h]
  · intro pre kname pairs1 n oid pairs2 post hpre hp hnone
    refine collectArgs_append_err svars pre _ _ hpre ?_
    have h := resolvePairs_first_err svars pairs1 n oid pairs2 hp hnone
    simp [collectArgs, h]
  · intro pre rid post hpre hnone
    have h := collectResults_first_err svars pre rid post 0 hpre hnone
    simpa using h

/-- Witness for C6 with `s_vars = [(10 ↦ 100)]`: the unresolvable
positional `x`, item 1 of varargs `va`, keyword `k`, and result 2 each
raise the documented message. -/
theorem trace_resolution_errors_witness :
    collectArgs [(10, 100)] [CallArg.pos "x" 99] =
      Except.error "Unable to trace argument x." ∧
    collectArgs [(10, 100)] [CallArg.star "va" [10, 99]] =
      Except.error "Unable to trace item 1 of variable argument va." ∧
    collectArgs [(10, 100)] [CallArg.dstar "kw" [("k", 99)]] =
      Except.error "Unable to trace argument k." ∧
    collectResults [(10, 100)] [10, 99] 0 =
      Except.error "Unable to trace result #2 (indexed from 1)." := by
  refine ⟨?_, ?_, ?_, ?_⟩
  · exact (trace_resolution_errors [(10, 100)]).1 [] "x" 99 []
      (by simp) (by simp [assoc])
  · have h := (trace_resolution_errors [(10, 100)]).2.1 [] "va" [10] 99 [] []
      (by simp) (by simp [assoc]) (by simp [assoc])
    simpa using h
  · exact (trace_resolution_errors [(10, 100)]).2.2.1 [] "kw" [] "k" 99 [] []
      (by simp) (by simp) (by simp [assoc])
  · have h := (trace_resolution_errors [(10, 100)]).2.2.2 [10] 99 []
      (by simp [assoc]) (by simp [assoc])
    simpa using h

/-- C7: `get_symbolic_arg` rejects every plain int in `-5..256`; a
string is resolved through `s_args` by argument name (error if absent);
any other value — including out-of-range plain ints — is resolved
through `s_vars` by the object's runtime identity (error if it was never
traced) (`symbolic.py` lines 255-282). -/
theorem get_symbolic_arg_resolution (s_args : List (String × SArgVal))
    (s_vars : List (Nat × Nat)) (x : PyVal) (xid : Nat) :
    (isSmallInt x = true →
      get_symbolic_arg s_args s_vars x xid = Except.error smallIntSelectiveMsg) ∧
    (∀ s, x = PyVal.str s →
      (∀ v, assoc s_args s = some v →
        get_symbolic_arg s_args s_vars x xid = Except.ok v) ∧
      (assoc s_args s = none →
        get_symbolic_arg s_args s_vars x xid = Except.error (notTracedMsg x))) ∧
    (isSmallInt x = false → (∀ s, x ≠ PyVal.str s) →
      (∀ sym, assoc s_vars xid = some sym →
        get_symbolic_arg s_args s_vars x xid = Except.ok (SArgVal.one sym)) ∧
      (assoc s_vars xid = none →
        get_symbolic_arg s_args s_vars x xid = Except.error (notTracedMsg x))) := by
  refine ⟨?_, ?_, ?_⟩
  · intro h
    cases x with
    | int n =>
      have hn : -5 ≤ n ∧ n ≤ 256 := by
        simpa [isSmallInt, Bool.and_eq_true, decide_eq_true_eq] using h
      simp [get_symbolic_arg, hn]
    | npint n => simp [isSmallInt] at h
    | str s => simp [isSmallInt] at h
    | list l => simp [isSmallInt] at h
    | tuple l => simp [isSmallInt] at h
    | dict l => simp [isSmallInt] at h
    | obj o => simp [isSmallInt] at h
  · intro s hx
    subst hx
    exact ⟨fun v hv => by simp [get_symbolic_arg, hv],
           fun hv => by simp [get_symbolic_arg, hv]⟩
  · intro hsmall hstr
    cases x with
    | int n =>
      have hn : ¬(-5 ≤ n ∧ n ≤ 256) := by
        simpa [isSmallInt, Bool.and_eq_true, decide_eq_true_eq] using hsmall
      exact ⟨fun sym hsym => by simp [get_symbolic_arg, hn, hsym],
             fun hsym => by simp [get_symbolic_arg, hn, hsym]⟩
    | str s => exact absurd rfl (hstr s)
    | npint n =>
      exact ⟨fun sym hsym => by simp [get_symbolic_arg, hsym],
             fun hsym => by simp [get_symbolic_arg, hsym]⟩
    | list l =>
      exact ⟨fun sym hsym => by simp [get_symbolic_arg, hsym],
             fun hsym => by simp [get_symbolic_arg, hsym]⟩
    | tuple l =>
      exact ⟨fun sym hsym => by simp [get_symbolic_arg, hsym],
             fun hsym => by simp [get_symbolic_arg, hsym]⟩
    | dict l =>
      exact ⟨fun sym hsym => by simp [get_symbolic_arg, hsym],
             fun hsym => by simp [get_symbolic_arg, hsym]⟩
    | obj o =>
      exact ⟨fun sym hsym => by simp [get_symbolic_arg, hsym],
             fun hsym => by simp [get_symbolic_arg, hsym]⟩

/-- Witness for C7: the small int 7 is rejected; the name `x` resolves
through `s_args`; an object resolves through `s_vars` by identity, and
errors when it was never traced. -/
theorem get_symbolic_arg_resolution_witness :
    get_symbolic_arg [] [] (PyVal.int 7) 0 = Except.error smallIntSelectiveMsg ∧
    get_symbolic_arg [("x", SArgVal.one 42)] [] (PyVal.str "x") 5 =
      Except.ok (SArgVal.one 42) ∧
    get_symbolic_arg [] [(33, 77)] (PyVal.obj 3) 33 =
      Except.ok (SArgVal.one 77) ∧
    get_symbolic_arg [] [] (PyVal.obj 3) 33 =
      Except.error (notTracedMsg (PyVal.obj 3)) :=
  ⟨(get_symbolic_arg_resolution [] [] (PyVal.int 7) 0).1 (by decide),
   ((get_symbolic_arg_resolution [("x", SArgVal.one 42)] []
      (PyVal.str "x") 5).2.1 "x" rfl).1 (SArgVal.one 42) (by simp [assoc]),
   ((get_symbolic_arg_resolution [] [(33, 77)] (PyVal.obj 3) 33).2.2
      (by decide) (fun s h => PyVal.noConfusion h)).1 77 (by simp [assoc]),
   ((get_symbolic_arg_resolution [] [] (PyVal.obj 3) 33).2.2
      (by decide) (fun s h => PyVal.noConfusion h)).2 rfl⟩

/-- The defaults normalization of `Symbolic.__init__` additionally
writes the defaults back in reversed order whenever there are at least
two: `new_defaults` is accumulated from `reversed(args)` and
`reversed(defaults)` (lines 52-56) and assigned without re-reversing
(line 57). -/
theorem normalizeDefaults_reversed_order :
    normalizeDefaults ⟨["x", "a", "b"], none, none,
        [PyVal.int 1, PyVal.obj 7]⟩ =
      ⟨["x", "a", "b"], none, none, [PyVal.obj 7, PyVal.npint 1]⟩ := rfl

/-- C8 (code defect), evaluated at the failing input — a heap holding
one function `f(x, a=1)`: `copy.deepcopy` treats function objects as
atomic and returns the caller's own object, so the default
normalization of `Symbolic.__init__` mutates the caller's function in
place; after construction the caller's heap slot no longer holds the
original function (its small-int default has been boxed). -/
theorem symbolic_init_mutates_original :
    symbolicInitPyfn [⟨["x", "a"], none, none, [PyVal.int 1]⟩] 0 =
      ([⟨["x", "a"], none, none, [PyVal.npint 1]⟩], 0) ∧
    (symbolicInitPyfn [⟨["x", "a"], none, none, [PyVal.int 1]⟩] 0).1.getD 0
        ⟨[], none, none, []⟩ ≠ ⟨["x", "a"], none, none, [PyVal.int 1]⟩ := by
  refine ⟨rfl, ?_⟩
  intro h
  have h2 : (⟨["x", "a"], none, none, [PyVal.npint 1]⟩ : PyFunc) =
      ⟨["x", "a"], none, none, [PyVal.int 1]⟩ := h
  have h4 := congrArg PyFunc.defaults h2
  simp at h4

/-- C9: constructing a `VectorArgs` compiler with all three compile
flags false raises the usage error before any tracing or compilation
(the world state is untouched); with at least one flag set, the
constructor traces once and compiles once, eagerly, on the supplied
initial arguments, leaving the compiled callable in the
compiled-artifact cache under the initial call arity at construction
time (`symbolic.py` lines 425-444). -/
theorem vectorargs_init_eager (spec : ArgSpec) (cfn cgrad chv : Bool)
    (initArgs : List PyVal) (initKwargs : List (String × PyVal))
    (world : VAState) :
    (cfn = false → cgrad = false → chv = false →
      va_init spec cfn cgrad chv initArgs initKwargs world =
        (world, Except.error vaFlagsMsg)) ∧
    ((cfn || cgrad || chv) = true →
      (va_init spec cfn cgrad chv initArgs initKwargs world).2 =
        Except.ok () ∧
      (va_init spec cfn cgrad chv initArgs initKwargs world).1.traceCount =
        world.traceCount + 1 ∧
      (va_init spec cfn cgrad chv initArgs initKwargs world).1.compileCount =
        world.compileCount + 1 ∧
      assoc (va_init spec cfn cgrad chv initArgs initKwargs world).1.cache
          (cache_id spec initArgs initKwargs) =
        some world.compileCount) := by
  constructor
  · intro h1 h2 h3
    subst h1; subst h2; subst h3
    simp [va_init]
  · intro h
    simp [va_init, h, va_compile_function, assoc]

/-- Witness for C9: all-false flags abort with the world untouched; a
single true flag traces and compiles once and populates the cache. -/
theorem vectorargs_init_eager_witness :
    va_init ⟨["x"], none, none⟩ false false false [PyVal.obj 1] []
        ⟨0, 0, []⟩ =
      (⟨0, 0, []⟩, Except.error vaFlagsMsg) ∧
    (va_init ⟨["x"], none, none⟩ true false false [PyVal.obj 1] []
        ⟨0, 0, []⟩).2 = Except.ok () ∧
    (va_init ⟨["x"], none, none⟩ true false false [PyVal.obj 1] []
        ⟨0, 0, []⟩).1.traceCount = 0 + 1 ∧
    (va_init ⟨["x"], none, none⟩ true false false [PyVal.obj 1] []
        ⟨0, 0, []⟩).1.compileCount = 0 + 1 ∧
    assoc (va_init ⟨["x"], none, none⟩ true false false [PyVal.obj 1] []
        ⟨0, 0, []⟩).1.cache
      (cache_id ⟨["x"], none, none⟩ [PyVal.obj 1] []) = some 0 :=
  ⟨(vectorargs_init_eager ⟨["x"], none, none⟩ false false false
      [PyVal.obj 1] [] ⟨0, 0, []⟩).1 rfl rfl rfl,
   (vectorargs_init_eager ⟨["x"], none, none⟩ true false false
      [PyVal.obj 1] [] ⟨0, 0, []⟩).2 rfl⟩

/-- C10: on success, the reboxing phase of `Symbolic.trace` leaves the
caller's positional tuple unchanged in the heap (`args` was copied into
a local list before reboxing), while the caller's own kwargs dict has
every value replaced by its `check`ed form — in particular every small
plain int passed by keyword is now boxed; the local positional list is
the boxed copy. -/
theorem trace_rebox_frame (spec : ArgSpec) (st : List PyVal)
    (argsRef kwargsRef : Nat) (argsList : List PyVal)
    (kwPairs : List (String × PyVal)) (st2 : List PyVal)
    (localArgs : List PyVal)
    (ha : st.getD argsRef (PyVal.obj 0) = PyVal.tuple argsList)
    (hk : st.getD kwargsRef (PyVal.obj 0) = PyVal.dict kwPairs)
    (hok : traceRebox spec st argsRef kwargsRef = Except.ok (st2, localArgs)) :
    st2.getD argsRef (PyVal.obj 0) = PyVal.tuple argsList ∧
    st2.getD kwargsRef (PyVal.obj 0) =
      PyVal.dict (kwPairs.map fun p => (p.1, boxSmall p.2)) ∧
    localArgs = (nameArgs spec argsList).map fun p => boxSmall p.2 := by
  have hne : kwargsRef ≠ argsRef := by
    intro heq
    rw [heq] at hk
    rw [ha] at hk
    exact PyVal.noConfusion hk
  have hlt : kwargsRef < st.length := by
    by_contra hge
    push_neg at hge
    rw [List.getD_eq_getElem?_getD, List.getElem?_eq_none hge] at hk
    simp at hk
  simp only [traceRebox, ha, hk] at hok
  cases hca : checkAll (nameArgs spec argsList) with
  | error e => rw [hca] at hok; cases hok
  | ok args2 =>
    rw [hca] at hok
    cases hck : checkKwargs kwPairs with
    | error e => rw [hck] at hok; cases hok
    | ok kw2 =>
      rw [hck] at hok
      cases hok
      refine ⟨?_, ?_, ?_⟩
      · rw [List.getD_eq_getElem?_getD, List.getElem?_set_ne hne,
          ← List.getD_eq_getElem?_getD]
        exact ha
      · rw [List.getD_eq_getElem?_getD]
        simp [List.getElem?_set_self, hlt,
          checkKwargs_ok_val kwPairs _ hck]
      · exact checkAll_ok_val _ _ hca

/-- Witness for C10: a heap holding the tuple `(3,)` and the dict
`(k = 7)`; after reboxing, the tuple is unchanged and the caller's dict
holds the boxed 7. -/
theorem trace_rebox_frame_witness :
    ([PyVal.tuple [PyVal.int 3],
      PyVal.dict [("k", PyVal.int 7)]] : List PyVal).getD 0 (PyVal.obj 0) =
      PyVal.tuple [PyVal.int 3] ∧
    ([PyVal.tuple [PyVal.int 3],
      PyVal.dict [("k", PyVal.int 7)]] : List PyVal).getD 1 (PyVal.obj 0) =
      PyVal.dict [("k", PyVal.int 7)] ∧
    ((([PyVal.tuple [PyVal.int 3], PyVal.dict [("k", PyVal.int 7)]] :
        List PyVal).set 1
          (PyVal.dict [("k", PyVal.npint 7)])).getD 0 (PyVal.obj 0) =
        PyVal.tuple [PyVal.int 3] ∧
      ((([PyVal.tuple [PyVal.int 3], PyVal.dict [("k", PyVal.int 7)]] :
        List PyVal).set 1
          (PyVal.dict [("k", PyVal.npint 7)])).getD 1 (PyVal.obj 0) =
        PyVal.dict ([("k", PyVal.int 7)].map fun p => (p.1, boxSmall p.2)) ∧
      [PyVal.npint 3] =
        (nameArgs ⟨["x"], none, none⟩ [PyVal.int 3]).map fun p => boxSmall p.2)) := by
  refine ⟨rfl, rfl, ?_⟩
  exact trace_rebox_frame ⟨["x"], none, none⟩
    [PyVal.tuple [PyVal.int 3], PyVal.dict [("k", PyVal.int 7)]] 0 1
    [PyVal.int 3] [("k", PyVal.int 7)]
    (([PyVal.tuple [PyVal.int 3], PyVal.dict [("k", PyVal.int 7)]] :
        List PyVal).set 1 (PyVal.dict [("k", PyVal.npint 7)]))
    [PyVal.npint 3] rfl rfl rfl

end PyAutodiff
